import Mathlib

/-!
Verification development for the Aggregation-and-Recommendation pipeline of
`ml/nemo_xgboost_property_optimization.py` (snuspl/incubator-nemo).

The script's own logic (option-parsing loop, merge fold, summary loop) is
embedded directly from the source.  The collaborators it imports from
`train.py` (`Data`, `dict_union`, `read_resource_info`) are not part of the
sources here; they are modelled from the specification where a claim needs
them, and each such definition is marked `Modelled from the spec:`.
-/

set_option autoImplicit false

namespace NemoXgb

/-! ### Python-language modelling helpers -/

/-- Value of a list of decimal digits, most significant first. -/
def digitsToNat (cs : List Char) : Nat :=
  cs.foldl (fun n c => 10 * n + (c.toNat - 48)) 0

/-- The ASCII-range characters Python's `int()` strips around a numeric
literal (the code points 9-13, 28-31 and 32, exactly the ASCII characters
for which `str.isspace()` holds). -/
def pyWs (c : Char) : Bool :=
  (9 ≤ c.toNat && c.toNat ≤ 13) || (28 ≤ c.toNat && c.toNat ≤ 31) || c.toNat == 32

/-- Strip leading and trailing Python whitespace. -/
def pyStrip (cs : List Char) : List Char :=
  ((cs.dropWhile pyWs).reverse.dropWhile pyWs).reverse

/-- Continuation of a digit run after its first digit: each underscore must
be followed by a digit (PEP 515 grouping: no leading, trailing or doubled
underscore). -/
def digitsU : List Char → Bool
  | [] => true
  | '_' :: c :: rest => c.isDigit && digitsU rest
  | c :: rest => c.isDigit && digitsU rest

/-- A nonempty decimal-digit run, possibly grouped with single underscores
between digits, as Python `int()` accepts. -/
def pyDigits : List Char → Bool
  | [] => false
  | c :: rest => c.isDigit && digitsU rest

/-- Numeric value of a digit run after dropping the grouping underscores. -/
def pyDigitsVal (cs : List Char) : Nat :=
  digitsToNat (cs.filter (fun c => c != '_'))

/-- Model of Python `int(s)` on a string given as its character list:
surrounding whitespace is stripped, then an optional sign followed by at
least one decimal digit (with optional single underscores between digits)
parses to the signed value; anything else raises `ValueError` (modelled as
`none`).  The model is exact for ASCII strings; the non-ASCII decimal
digits and spaces that Python also accepts are outside it, so theorems
about failing parses restrict their keys to ASCII. -/
def pyIntChars (cs : List Char) : Option Int :=
  match pyStrip cs with
  | '-' :: rest => if pyDigits rest then some (-(pyDigitsVal rest : Int)) else none
  | '+' :: rest => if pyDigits rest then some (pyDigitsVal rest : Int) else none
  | t => if pyDigits t then some (pyDigitsVal t : Int) else none

/-- Accumulator-style worker for `pySplit`; mirrors Python `str.split(sep)`
for a one-character separator: scanning left to right, each separator ends
the current piece, and the final piece is what remains (possibly empty). -/
def pySplitAux (sep : Char) : List Char → List Char → List String
  | [], acc => [String.mk acc.reverse]
  | c :: cs, acc =>
    if c = sep then String.mk acc.reverse :: pySplitAux sep cs []
    else pySplitAux sep cs (c :: acc)

/-- Model of Python `s.split(sep)` for a one-character separator `sep`. -/
def pySplit (s : String) (sep : Char) : List String :=
  pySplitAux sep s.data []

/-- First-match lookup in an insertion-ordered association list, the way a
Python `dict` (which never holds duplicate keys) is read. -/
def alookup {β : Type} (k : String) : List (String × β) → Option β
  | [] => none
  | p :: rest => if p.1 = k then some p.2 else alookup k rest

/-! ### Data model -/

/-- A typed execution-property value as carried in `EPValue` (Python scalars:
integers, strings, booleans). -/
inductive TypedValue where
  | vInt : Int → TypedValue
  | vStr : String → TypedValue
  | vBool : Bool → TypedValue
deriving DecidableEq, Repr

/-- Python truthiness of a `TypedValue`: `0`, `""` and `False` are falsy. -/
def truthy : TypedValue → Bool
  | .vInt n => n != 0
  | .vStr s => s != ""
  | .vBool b => b

/-- Python truthiness of an optional value: `None` is falsy. -/
def pyTruthy : Option TypedValue → Bool
  | none => false
  | some v => truthy v

/-- Inner level of an importance mapping: SplitLabel to signed importance. -/
abbrev InnerMap := List (String × Rat)

/-- Two-level importance mapping: stringified FeatureID to inner mapping. -/
abbrev ImportanceMapping := List (String × InnerMap)

/-- Value used for an outer key present in both operands of a union:
the second operand's inner value wins where both have the split label. -/
def combineAt {β : Type} (f : β → β → β) (b : List (String × β)) (k : String) (va : β) : β :=
  match alookup k b with
  | some vb => f va vb
  | none => va

/-- Union of two insertion-ordered string-keyed maps: the first operand's
keys in order (with colliding values combined by `f`), then the second
operand's new keys in order — Python `{**a, **b}` key order. -/
def pyUnion {β : Type} (f : β → β → β) (a b : List (String × β)) : List (String × β) :=
  a.map (fun p => (p.1, combineAt f b p.1 p.2))
    ++ b.filter (fun p => (alookup p.1 a).isNone)

/-- Modelled from the spec: `dict_union` is defined in `train.py`, which is
not among the sources here.  Per §4.1 the result holds, for each outer key
present in either input, the union of the inner keys; an inner value present
in only one input passes through unchanged; colliding inner values are
combined with the replace-with-latest baseline policy (§4.1, §9). -/
def dict_union (a b : ImportanceMapping) : ImportanceMapping :=
  pyUnion (fun ia ib => pyUnion (fun _ vb => vb) ia ib) a b

/-- Two-level lookup in an importance mapping. -/
def lookup2 (m : ImportanceMapping) (k s : String) : Option Rat :=
  (alookup k m).bind (fun inner => alookup s inner)

/-- The merge fold of the driver: `results = {}` then
`results = dict_union(results, t.importance_dict())` over the trees in order. -/
def results_of (trees : List ImportanceMapping) : ImportanceMapping :=
  trees.foldl dict_union []

/-- Errors that can abort the summary loop: `ResolutionError` raised by the
resolver, or `ValueError` raised by `int()` on a malformed outer key. -/
inductive RunError where
  | resolutionError
  | valueError
deriving DecidableEq, Repr

/-- Modelled from the spec: the `Data` collaborator lives in `train.py`,
which is not among the sources here.  §6: `transform_id_to_keypair` decodes a
FeatureID to `(vertexID, qualifiedKey, pattern)` and fails with
`ResolutionError` (modelled as `none`) outside the decodable range;
`derive_value_from` derives a raw value; `transform_id_to_value` returns a
typed value or absent (`none`), never an error. -/
structure DataModel where
  transform_id_to_keypair : Int → Option (Int × String × String)
  derive_value_from : Int → String → String → Rat → Rat
  transform_id_to_value : String → Rat → Option TypedValue

/-- One entry of the emitted `resultsJson` array. -/
structure Record where
  type : String
  ID : Int
  EPKeyClass : String
  EPValueClass : String
  EPValue : TypedValue
deriving DecidableEq, Repr

/-- The explanation line printed for one `(qualifiedKey, splitLabel, value)`
triple: `f'{key} should be {vv} ({how}) than {kk}'` with
`how = 'greater' if vv > 0 else 'smaller'`. -/
def explanationOf (key kk : String) (vv : Rat) : String :=
  key ++ " should be " ++ toString vv ++ " (" ++
    (if vv > 0 then "greater" else "smaller") ++ ") than " ++ kk

/-- Body of the summary loop for one entry `(k, kk, vv)` of the merged
mapping: `feature_id = int(k[1:])`; resolve the feature id; build the
explanation string; split the qualified key on `'/'`; decode the concrete
value and keep the record only when the value is truthy (`if value:`).
An uncaught Python exception is an `.error` result. -/
def processEntry (d : DataModel) (k kk : String) (vv : Rat) :
    Except RunError (String × Option Record) :=
  match pyIntChars (k.data.drop 1) with
  | none => .error .valueError
  | some feature_id =>
    match d.transform_id_to_keypair feature_id with
    | none => .error .resolutionError
    | some (i, key, tpe) =>
      let classes := pySplit key '/'
      let key_class := classes.headD ""
      let value_class := classes.getD 1 ""
      let value := d.transform_id_to_value key (d.derive_value_from feature_id key kk vv)
      .ok (explanationOf key kk vv,
        match value with
        | some v => if truthy v then some (Record.mk tpe i key_class value_class v) else none
        | none => none)

/-- The nested `for k, v in results.items(): for kk, vv in v.items():`
iteration order, flattened. -/
def flatEntries : ImportanceMapping → List (String × String × Rat)
  | [] => []
  | (k, inner) :: rest => inner.map (fun sv => (k, sv.1, sv.2)) ++ flatEntries rest

/-- Runs the summary loop over the flattened entries.  Each entry's
explanation is printed (line 78) as soon as the entry is processed, so the
first component collects the explanations of every entry up to and
excluding the first erroring one (in an erroring entry the exception at
`int(k[1:])` or at resolution occurs before anything is printed).  The
record list `resultsJson` is only written to `results.out` after the loop
completes, so its outcome is an `Except`: the first uncaught exception, or
the completed record list.  Recursion on the entry list builds the same
sequences as the script's append-only accumulation. -/
def runEntries (d : DataModel) : List (String × String × Rat) →
    List String × Except RunError (List Record)
  | [] => ([], .ok [])
  | e :: es =>
    match processEntry d e.1 e.2.1 e.2.2 with
    | .error err => ([], .error err)
    | .ok (s, ro) =>
      (s :: (runEntries d es).1,
        match (runEntries d es).2 with
        | .error err => .error err
        | .ok recs => .ok (ro.toList ++ recs))

/-- The whole summary phase over a merged mapping: the printed explanation
lines, and the record output (or the error that aborted the run). -/
def summarize (d : DataModel) (m : ImportanceMapping) :
    List String × Except RunError (List Record) :=
  runEntries d (flatEntries m)

/-- The record (if any) contributed by one entry. -/
def recOf (d : DataModel) (e : String × String × Rat) : Option Record :=
  match processEntry d e.1 e.2.1 e.2.2 with
  | .ok (_, ro) => ro
  | .error _ => none

/-- Whether one entry processes without raising. -/
def entryOk (d : DataModel) (e : String × String × Rat) : Bool :=
  match processEntry d e.1 e.2.1 e.2.2 with
  | .ok _ => true
  | .error _ => false

/-- The explanation line an entry prints (meaningful when the entry
processes without raising). -/
def explStr (d : DataModel) (e : String × String × Rat) : String :=
  match processEntry d e.1 e.2.1 e.2.2 with
  | .ok (s, _) => s
  | .error _ => ""

/-- What the claim's words ask of `EPValueClass`: all the text after the
FIRST `'/'` of the qualified key (empty when there is no `'/'`).  Kept for
comparison with the implementation's second-segment behaviour. -/
def afterFirstSlashSpec (s : String) : String :=
  String.mk ((s.data.dropWhile (fun c => c ≠ '/')).drop 1)

/-! ### Command-line option loop -/

/-- The three variables assigned by the option loop. -/
structure CliState where
  dagsummary : Option String
  dagpropertydir : Option String
  resourceinfo : Option String
deriving DecidableEq, Repr

/-- One iteration of the option loop.  `-h` prints usage and exits
(modelled as `none`).  Note the `-s`/`--dagsummary` branch assigns
`dagpropertydir`, exactly as the source does. -/
def applyOpt (st : CliState) (oa : String × String) : Option CliState :=
  if oa.1 = "-h" then none
  else if oa.1 = "-s" ∨ oa.1 = "--dagsummary" then
    some (CliState.mk st.dagsummary (some oa.2) st.resourceinfo)
  else if oa.1 = "-d" ∨ oa.1 = "--dagpropertydir" then
    some (CliState.mk st.dagsummary (some oa.2) st.resourceinfo)
  else if oa.1 = "-r" ∨ oa.1 = "--resourceinfo" then
    some (CliState.mk st.dagsummary st.dagpropertydir (some oa.2))
  else some st

/-- The whole option loop, starting from the three `None` initialisations. -/
def parseOpts (opts : List (String × String)) : Option CliState :=
  List.foldlM applyOpt (CliState.mk none none none) opts

/-! ### Concrete collaborator instances used by witnesses and
counterexamples -/

/-- A resolver knowing feature ids 5 and 7, every value decodes to the
truthy integer 7. -/
def dGood : DataModel :=
  DataModel.mk
    (fun fid =>
      if fid = 5 then some (1, "A/B", "VERTEX")
      else if fid = 7 then some (2, "C/D", "VERTEX")
      else none)
    (fun _ _ _ v => v)
    (fun _ _ => some (TypedValue.vInt 7))

/-- A resolver whose qualified key has no `'/'` at all. -/
def dNoSlash : DataModel :=
  DataModel.mk
    (fun fid => if fid = 5 then some (1, "A", "VERTEX") else none)
    (fun _ _ _ v => v)
    (fun _ _ => some (TypedValue.vInt 7))

/-- A resolver whose qualified key has two `'/'` characters. -/
def dABC : DataModel :=
  DataModel.mk
    (fun fid => if fid = 5 then some (1, "A/B/C", "VERTEX") else none)
    (fun _ _ _ v => v)
    (fun _ _ => some (TypedValue.vInt 7))

/-- A resolver whose value decoder always reports the value as absent. -/
def dAbsent : DataModel :=
  DataModel.mk
    (fun fid => if fid = 5 then some (1, "A/B", "VERTEX") else none)
    (fun _ _ _ v => v)
    (fun _ _ => none)

/-- A resolver whose value decoder returns the falsy integer 0. -/
def dZero : DataModel :=
  DataModel.mk
    (fun fid => if fid = 5 then some (1, "A/B", "VERTEX") else none)
    (fun _ _ _ v => v)
    (fun _ _ => some (TypedValue.vInt 0))

/-! ### Helper lemmas -/

theorem string_eq_of_data (s t : String) (h : s.data = t.data) : s = t := by
  cases s
  cases t
  exact congrArg String.mk h

theorem mk_append (l1 l2 : List Char) : String.mk (l1 ++ l2) = String.mk l1 ++ String.mk l2 := rfl

theorem data_append (a b : String) : (a ++ b).data = a.data ++ b.data := by
  cases a
  cases b
  rfl

theorem mk_data (s : String) : String.mk s.data = s := rfl

theorem alookup_map_combine {β : Type} (f : β → β → β) (b : List (String × β)) (k : String)
    (a : List (String × β)) :
    alookup k (a.map (fun p => (p.1, combineAt f b p.1 p.2))) =
      (alookup k a).map (combineAt f b k) := by
  induction a with
  | nil => rfl
  | cons p rest ih =>
    by_cases h : p.1 = k
    · subst h
      simp [alookup]
    · simp [alookup, h, ih]

theorem alookup_filter_notin {β : Type} (a : List (String × β)) (k : String)
    (b : List (String × β)) :
    alookup k (b.filter (fun p => (alookup p.1 a).isNone)) =
      if (alookup k a).isNone then alookup k b else none := by
  induction b with
  | nil => simp [alookup]
  | cons p rest ih =>
    by_cases h : p.1 = k
    · subst h
      cases hq : (alookup p.1 a).isNone with
      | false => simp [List.filter_cons, hq, ih]
      | true => simp [List.filter_cons, hq, alookup]
    · cases hq : (alookup p.1 a).isNone with
      | false => simp [List.filter_cons, hq, h, ih, alookup]
      | true => simp [List.filter_cons, hq, h, ih, alookup]

theorem alookup_append {β : Type} (k : String) (l1 l2 : List (String × β)) :
    alookup k (l1 ++ l2) =
      match alookup k l1 with
      | some v => some v
      | none => alookup k l2 := by
  induction l1 with
  | nil => simp [alookup]
  | cons p rest ih =>
    by_cases h : p.1 = k <;> simp [alookup, h, ih]

theorem alookup_pyUnion {β : Type} (f : β → β → β) (a b : List (String × β)) (k : String) :
    alookup k (pyUnion f a b) =
      match alookup k a, alookup k b with
      | some va, some vb => some (f va vb)
      | some va, none => some va
      | none, ob => ob := by
  unfold pyUnion
  rw [alookup_append, alookup_map_combine]
  cases ha : alookup k a <;> cases hb : alookup k b <;>
    simp [combineAt, ha, hb, alookup_filter_notin]

theorem pySplitAux_ne_nil (sep : Char) (cs acc : List Char) : pySplitAux sep cs acc ≠ [] := by
  induction cs generalizing acc with
  | nil => simp [pySplitAux]
  | cons c cs ih =>
    by_cases h : c = sep
    · simp [pySplitAux, h]
    · simp only [pySplitAux, if_neg h]
      exact ih (c :: acc)

theorem pySplitAux_single (cs : List Char) (acc : List Char) (x : String)
    (h : pySplitAux '/' cs acc = [x]) : x = String.mk (acc.reverse ++ cs) := by
  induction cs generalizing acc with
  | nil =>
    simp [pySplitAux] at h
    simp [← h]
  | cons c cs ih =>
    by_cases hc : c = '/'
    · subst hc
      simp [pySplitAux] at h
      exact absurd h.2 (pySplitAux_ne_nil '/' cs [])
    · simp only [pySplitAux, if_neg hc] at h
      have hx := ih (c :: acc) h
      simpa [List.reverse_cons, List.append_assoc] using hx

theorem pySplitAux_pair (cs : List Char) (acc : List Char) (kc vc : String)
    (h : pySplitAux '/' cs acc = [kc, vc]) :
    String.mk (acc.reverse ++ cs) = kc ++ "/" ++ vc := by
  induction cs generalizing acc with
  | nil => simp [pySplitAux] at h
  | cons c cs ih =>
    by_cases hc : c = '/'
    · subst hc
      simp only [pySplitAux, if_pos rfl] at h
      have h1 : String.mk acc.reverse = kc := (List.cons_eq_cons.mp h).1
      have h2 : pySplitAux '/' cs [] = [vc] := (List.cons_eq_cons.mp h).2
      have hv : vc = String.mk cs := by
        have hx := pySplitAux_single cs [] vc h2
        simpa using hx
      subst hv
      rw [← h1]
      apply string_eq_of_data
      rw [data_append, data_append]
      show acc.reverse ++ '/' :: cs = (acc.reverse ++ ['/']) ++ cs
      simp
    · simp only [pySplitAux, if_neg hc] at h
      have hx := ih (c :: acc) h
      simpa [List.reverse_cons, List.append_assoc] using hx

theorem pySplit_pair (key kc vc : String) (h : pySplit key '/' = [kc, vc]) :
    kc ++ "/" ++ vc = key := by
  have hx := pySplitAux_pair key.data [] kc vc h
  simpa [mk_data] using hx.symm

theorem alookup_dict_union (a b : ImportanceMapping) (k : String) :
    alookup k (dict_union a b) =
      match alookup k a, alookup k b with
      | some ia, some ib => some (pyUnion (fun _ vb => vb) ia ib)
      | some ia, none => some ia
      | none, ob => ob := by
  unfold dict_union
  rw [alookup_pyUnion]
  cases ha : alookup k a <;> cases hb : alookup k b <;> simp

theorem lookup2_dict_union (a b : ImportanceMapping) (k s : String) :
    lookup2 (dict_union a b) k s =
      match lookup2 a k s, lookup2 b k s with
      | some _, some vb => some vb
      | some va, none => some va
      | none, ob => ob := by
  unfold lookup2
  rw [alookup_dict_union]
  cases ha : alookup k a with
  | none =>
    cases hb : alookup k b with
    | none => simp
    | some ib => simp
  | some ia =>
    cases hb : alookup k b with
    | none =>
      cases hs : alookup s ia <;> simp [hs]
    | some ib =>
      simp only [Option.some_bind]
      rw [alookup_pyUnion]
      cases hsa : alookup s ia <;> cases hsb : alookup s ib <;> simp [hsa, hsb]

theorem processEntry_eq (d : DataModel) (k kk : String) (vv : Rat) (fid i : Int)
    (key tpe : String)
    (h1 : pyIntChars (k.data.drop 1) = some fid)
    (h2 : d.transform_id_to_keypair fid = some (i, key, tpe)) :
    processEntry d k kk vv =
      .ok (explanationOf key kk vv,
        match d.transform_id_to_value key (d.derive_value_from fid key kk vv) with
        | some v =>
          if truthy v then
            some (Record.mk tpe i ((pySplit key '/').headD "") ((pySplit key '/').getD 1 "") v)
          else none
        | none => none) := by
  simp only [processEntry]
  rw [h1]
  simp [h2]

theorem processEntry_resolution_error (d : DataModel) (k kk : String) (vv : Rat) (fid : Int)
    (h1 : pyIntChars (k.data.drop 1) = some fid)
    (h2 : d.transform_id_to_keypair fid = none) :
    processEntry d k kk vv = .error .resolutionError := by
  simp only [processEntry]
  rw [h1]
  simp [h2]

/-- C4: for every pair of ImportanceMappings passed to merge, the merged
result contains every outer key present in either input; under each outer
key it contains the union of that key's inner SplitLabel keys from the two
inputs; and an inner (SplitLabel, value) pair present in only one input
appears in the result with its value unchanged. -/
theorem C4_dict_union_merge (a b : ImportanceMapping) :
    (∀ k : String, (alookup k (dict_union a b)).isSome ↔
        ((alookup k a).isSome ∨ (alookup k b).isSome))
    ∧ (∀ k s : String, (lookup2 (dict_union a b) k s).isSome ↔
        ((lookup2 a k s).isSome ∨ (lookup2 b k s).isSome))
    ∧ (∀ (k s : String) (v : Rat),
        (lookup2 a k s = some v ∧ lookup2 b k s = none) ∨
          (lookup2 a k s = none ∧ lookup2 b k s = some v) →
        lookup2 (dict_union a b) k s = some v) := by
  refine ⟨?_, ?_, ?_⟩
  · intro k
    rw [alookup_dict_union]
    cases ha : alookup k a <;> cases hb : alookup k b <;> simp
  · intro k s
    rw [lookup2_dict_union]
    cases ha : lookup2 a k s <;> cases hb : lookup2 b k s <;> simp
  · intro k s v h
    rw [lookup2_dict_union]
    rcases h with ⟨h1, h2⟩ | ⟨h1, h2⟩ <;> rw [h1, h2]

/-- Witness for C4: the pass-through conjunct applied at two concrete
one-tree mappings. -/
theorem C4_dict_union_merge_witness :
    lookup2 (dict_union [("f5", [("s1", (3 : Rat))])] [("f7", [("s2", (2 : Rat))])])
      "f5" "s1" = some 3 :=
  (C4_dict_union_merge [("f5", [("s1", (3 : Rat))])] [("f7", [("s2", (2 : Rat))])]).2.2
    "f5" "s1" 3 (Or.inl ⟨by decide, by decide⟩)

/-- C6: merging is deterministic — folding the same sequence of tree
importance mappings through the merge step twice, in the same order, yields
identical merged mappings. -/
theorem C6_merge_deterministic (ts1 ts2 : List ImportanceMapping) (h : ts1 = ts2) :
    results_of ts1 = results_of ts2 := by
  rw [h]

/-- Witness for C6: two runs of the fold over the same concrete tree list
agree. -/
theorem C6_merge_deterministic_witness :
    results_of [[("f5", [("s1", (3 : Rat))])], [("f5", [("s1", (-1 : Rat))])]] =
      results_of [[("f5", [("s1", (3 : Rat))])], [("f5", [("s1", (-1 : Rat))])]] :=
  C6_merge_deterministic _ _ rfl

/-- C3: for every (FeatureID, SplitLabel, value) entry processed, the
explanation string equals `<qualifiedKey> should be <value> (greater) than
<splitLabel>` when the merged importance value is strictly greater than 0,
and `<qualifiedKey> should be <value> (smaller) than <splitLabel>` when it
is less than or equal to 0. -/
theorem C3_explanation_string (d : DataModel) (k kk : String) (vv : Rat) (fid i : Int)
    (key tpe : String) (out : String × Option Record)
    (h1 : pyIntChars (k.data.drop 1) = some fid)
    (h2 : d.transform_id_to_keypair fid = some (i, key, tpe))
    (h3 : processEntry d k kk vv = .ok out) :
    (0 < vv → out.1 = key ++ " should be " ++ toString vv ++ " (greater) than " ++ kk)
    ∧ (vv ≤ 0 → out.1 = key ++ " should be " ++ toString vv ++ " (smaller) than " ++ kk) := by
  rw [processEntry_eq d k kk vv fid i key tpe h1 h2] at h3
  injection h3 with h3
  constructor
  · intro hpos
    rw [← h3]
    show explanationOf key kk vv = _
    unfold explanationOf
    rw [if_pos hpos]
    apply string_eq_of_data
    simp only [data_append, List.append_assoc]
    rfl
  · intro hle
    rw [← h3]
    show explanationOf key kk vv = _
    unfold explanationOf
    rw [if_neg (not_lt.mpr hle)]
    apply string_eq_of_data
    simp only [data_append, List.append_assoc]
    rfl

/-- Witness for C3 at a concrete entry with positive importance. -/
theorem C3_explanation_string_witness :
    (0 < (3 : Rat) →
      ("A/B should be 3 (greater) than s1",
        some (Record.mk "VERTEX" 1 "A" "B" (TypedValue.vInt 7))).1 =
        "A/B" ++ " should be " ++ toString (3 : Rat) ++ " (greater) than " ++ "s1")
    ∧ ((3 : Rat) ≤ 0 →
      ("A/B should be 3 (greater) than s1",
        some (Record.mk "VERTEX" 1 "A" "B" (TypedValue.vInt 7))).1 =
        "A/B" ++ " should be " ++ toString (3 : Rat) ++ " (smaller) than " ++ "s1") :=
  C3_explanation_string dGood "f5" "s1" 3 5 1 "A/B" "VERTEX"
    ("A/B should be 3 (greater) than s1",
      some (Record.mk "VERTEX" 1 "A" "B" (TypedValue.vInt 7)))
    rfl rfl rfl

/-- C5: an entry whose qualifiedKey names a value-class with no derivable
concrete value gets an absent decode result rather than an error, emits no
RecommendationRecord, and processing continues silently with the remaining
entries. -/
theorem C5_absent_value_skipped (d : DataModel) (k kk : String) (vv : Rat) (fid i : Int)
    (key tpe : String)
    (h1 : pyIntChars (k.data.drop 1) = some fid)
    (h2 : d.transform_id_to_keypair fid = some (i, key, tpe))
    (h3 : d.transform_id_to_value key (d.derive_value_from fid key kk vv) = none) :
    processEntry d k kk vv = .ok (explanationOf key kk vv, none)
    ∧ ∀ rest : ImportanceMapping,
        summarize d ((k, [(kk, vv)]) :: rest) =
          (explanationOf key kk vv :: (summarize d rest).1, (summarize d rest).2) := by
  have hpe : processEntry d k kk vv = .ok (explanationOf key kk vv, none) := by
    rw [processEntry_eq d k kk vv fid i key tpe h1 h2, h3]
  refine ⟨hpe, ?_⟩
  intro rest
  unfold summarize
  have hfe : flatEntries ((k, [(kk, vv)]) :: rest) = (k, kk, vv) :: flatEntries rest := by
    simp [flatEntries]
  rw [hfe]
  rw [show runEntries d ((k, kk, vv) :: flatEntries rest) =
        match processEntry d k kk vv with
        | .error err => ([], .error err)
        | .ok (s, ro) =>
          (s :: (runEntries d (flatEntries rest)).1,
            match (runEntries d (flatEntries rest)).2 with
            | .error err => .error err
            | .ok recs => .ok (ro.toList ++ recs))
      from rfl]
  rw [hpe]
  cases hrest : (runEntries d (flatEntries rest)).2 with
  | error err => simp [hrest]
  | ok recs => simp [hrest]

/-- Witness for C5 at a concrete entry whose value decodes as absent. -/
theorem C5_absent_value_skipped_witness :
    processEntry dAbsent "f5" "s1" 3 = .ok (explanationOf "A/B" "s1" 3, none) :=
  (C5_absent_value_skipped dAbsent "f5" "s1" 3 5 1 "A/B" "VERTEX" rfl rfl rfl).1

/-- Running the loop over entries that all succeed, followed by an entry
that raises, yields exactly the successful entries' explanation lines and
the uncaught error: nothing after the erroring entry is processed and no
record output is produced. -/
theorem runEntries_abort (d : DataModel) (pre : List (String × String × Rat))
    (e0 : String × String × Rat) (post : List (String × String × Rat)) (err : RunError)
    (hbad : processEntry d e0.1 e0.2.1 e0.2.2 = .error err)
    (hpre : ∀ e ∈ pre, entryOk d e = true) :
    runEntries d (pre ++ e0 :: post) = (pre.map (explStr d), .error err) := by
  induction pre with
  | nil =>
    rw [List.nil_append]
    rw [show runEntries d (e0 :: post) =
          match processEntry d e0.1 e0.2.1 e0.2.2 with
          | .error err2 => ([], .error err2)
          | .ok (s, ro) =>
            (s :: (runEntries d post).1,
              match (runEntries d post).2 with
              | .error err2 => .error err2
              | .ok recs => .ok (ro.toList ++ recs))
        from rfl]
    rw [hbad]
    simp
  | cons e pre ih =>
    have he : entryOk d e = true := hpre e (List.mem_cons_self e pre)
    have hpre2 : ∀ x ∈ pre, entryOk d x = true := fun x hx => hpre x (List.mem_cons_of_mem e hx)
    unfold entryOk at he
    cases hpe : processEntry d e.1 e.2.1 e.2.2 with
    | error err2 =>
      rw [hpe] at he
      simp at he
    | ok pr =>
      obtain ⟨s, ro⟩ := pr
      have hst : explStr d e = s := by simp [explStr, hpe]
      rw [List.cons_append]
      rw [show runEntries d (e :: (pre ++ e0 :: post)) =
            match processEntry d e.1 e.2.1 e.2.2 with
            | .error err2 => ([], .error err2)
            | .ok (s2, ro2) =>
              (s2 :: (runEntries d (pre ++ e0 :: post)).1,
                match (runEntries d (pre ++ e0 :: post)).2 with
                | .error err2 => .error err2
                | .ok recs => .ok (ro2.toList ++ recs))
          from rfl]
      rw [hpe, ih hpre2]
      simp [hst]

/-- C1 counterexample: with a resolver that fails on feature id 9999 and
succeeds on 5, a mapping holding the bad entry and a good entry makes the
whole run abort with ResolutionError — no record output at all is produced
and the good entry is never processed — although the good entry alone
would produce an explanation and a record (second conjunct), so the other
entry is not "unaffected" as the claim states. -/
theorem C1_skip_and_continue_counterexample :
    summarize dGood [("f9999", [("sX", (1 : Rat))]), ("f5", [("s1", (3 : Rat))])] =
      ([], .error .resolutionError)
    ∧ summarize dGood [("f5", [("s1", (3 : Rat))])] =
        (["A/B should be 3 (greater) than s1"],
          .ok [Record.mk "VERTEX" 1 "A" "B" (TypedValue.vInt 7)]) :=
  ⟨rfl, rfl⟩

/-- C1 (amended): for every merged mapping containing an entry whose
FeatureID is outside the decodable range — taking the first erroring entry
in iteration order (the entries before it all process without raising) —
resolving that entry raises ResolutionError and the error propagates
uncaught: the run aborts there, the explanation lines of the entries before
it are still printed, no RecommendationRecord output is produced at all,
and no later entry is processed. -/
theorem C1_resolution_error_aborts (d : DataModel) (m : ImportanceMapping)
    (pre post : List (String × String × Rat)) (k kk : String) (vv : Rat) (fid : Int)
    (hsplit : flatEntries m = pre ++ (k, kk, vv) :: post)
    (hpre : ∀ e ∈ pre, entryOk d e = true)
    (h1 : pyIntChars (k.data.drop 1) = some fid)
    (h2 : d.transform_id_to_keypair fid = none) :
    summarize d m = (pre.map (explStr d), .error .resolutionError) := by
  unfold summarize
  rw [hsplit]
  exact runEntries_abort d pre (k, kk, vv) post RunError.resolutionError
    (processEntry_resolution_error d k kk vv fid h1 h2) hpre

/-- Witness for C1's amended theorem: the bad entry sits after a good one,
whose explanation is printed before the abort. -/
theorem C1_resolution_error_aborts_witness :
    summarize dGood [("f5", [("s1", (3 : Rat))]), ("f9999", [("sX", (1 : Rat))])] =
      (["A/B should be 3 (greater) than s1"], .error .resolutionError) :=
  C1_resolution_error_aborts dGood
    [("f5", [("s1", (3 : Rat))]), ("f9999", [("sX", (1 : Rat))])]
    [("f5", "s1", (3 : Rat))] [] "f9999" "sX" 1 9999 rfl (by decide) rfl rfl

/-- C2 counterexample: a resolver returning a qualifiedKey with no '/'
yields a record whose EPKeyClass/EPValueClass concatenation appends a
spurious '/', so it does not reconstruct the qualifiedKey. -/
theorem C2_roundtrip_counterexample :
    processEntry dNoSlash "f5" "s1" 3 =
      .ok ("A should be 3 (greater) than s1",
        some (Record.mk "VERTEX" 1 "A" "" (TypedValue.vInt 7)))
    ∧ (Record.mk "VERTEX" 1 "A" "" (TypedValue.vInt 7)).EPKeyClass ++ "/" ++
        (Record.mk "VERTEX" 1 "A" "" (TypedValue.vInt 7)).EPValueClass ≠ "A" :=
  ⟨rfl, by decide⟩

/-- C2 (amended): for every emitted record whose qualifiedKey consists of
exactly two '/'-separated pieces (that is, contains exactly one '/'),
concatenating EPKeyClass, '/', and EPValueClass reconstructs exactly the
qualifiedKey returned by resolving the record's FeatureID. -/
theorem C2_roundtrip_amended (d : DataModel) (k kk : String) (vv : Rat) (fid i : Int)
    (key tpe kc vc s : String) (r : Record)
    (h1 : pyIntChars (k.data.drop 1) = some fid)
    (h2 : d.transform_id_to_keypair fid = some (i, key, tpe))
    (h3 : pySplit key '/' = [kc, vc])
    (h4 : processEntry d k kk vv = .ok (s, some r)) :
    r.EPKeyClass ++ "/" ++ r.EPValueClass = key := by
  rw [processEntry_eq d k kk vv fid i key tpe h1 h2] at h4
  injection h4 with h4
  have h5 : (match d.transform_id_to_value key (d.derive_value_from fid key kk vv) with
      | some v =>
        if truthy v then
          some (Record.mk tpe i ((pySplit key '/').headD "") ((pySplit key '/').getD 1 "") v)
        else none
      | none => none) = some r := congrArg Prod.snd h4
  cases hval : d.transform_id_to_value key (d.derive_value_from fid key kk vv) with
  | none =>
    rw [hval] at h5
    simp at h5
  | some v =>
    rw [hval] at h5
    by_cases ht : truthy v = true
    · simp [ht] at h5
      rw [← h5]
      simp [h3]
      exact pySplit_pair key kc vc h3
    · simp [ht] at h5

/-- Witness for C2's amended round-trip at a concrete record. -/
theorem C2_roundtrip_amended_witness :
    (Record.mk "VERTEX" 1 "A" "B" (TypedValue.vInt 7)).EPKeyClass ++ "/" ++
      (Record.mk "VERTEX" 1 "A" "B" (TypedValue.vInt 7)).EPValueClass = "A/B" :=
  C2_roundtrip_amended dGood "f5" "s1" 3 5 1 "A/B" "VERTEX" "A" "B"
    "A/B should be 3 (greater) than s1" (Record.mk "VERTEX" 1 "A" "B" (TypedValue.vInt 7))
    rfl rfl rfl rfl

/-- C7 counterexample: with a qualifiedKey holding two '/' characters the
emitted record's EPValueClass is the second '/'-separated segment ("B"),
not the text after the first '/' ("B/C") as the claim states. -/
theorem C7_record_fields_counterexample :
    processEntry dABC "f5" "s1" 3 =
      .ok ("A/B/C should be 3 (greater) than s1",
        some (Record.mk "VERTEX" 1 "A" "B" (TypedValue.vInt 7)))
    ∧ afterFirstSlashSpec "A/B/C" = "B/C"
    ∧ (Record.mk "VERTEX" 1 "A" "B" (TypedValue.vInt 7)).EPValueClass ≠
        afterFirstSlashSpec "A/B/C" :=
  ⟨rfl, rfl, by decide⟩

/-- C7 (amended): every emitted record has exactly the five fields type,
ID, EPKeyClass, EPValueClass, EPValue, where type equals the pattern and ID
the vertexID returned by decoding the entry's FeatureID, EPKeyClass is the
first '/'-separated segment of the qualifiedKey, EPValueClass the second
segment (the text between the first and second '/', empty when there is no
'/'), and EPValue the decoded concrete value; records are appended in the
iteration order of the merged mapping. -/
theorem C7_record_fields (d : DataModel) (k kk : String) (vv : Rat) (fid i : Int)
    (key tpe : String) (v : TypedValue)
    (h1 : pyIntChars (k.data.drop 1) = some fid)
    (h2 : d.transform_id_to_keypair fid = some (i, key, tpe))
    (h3 : d.transform_id_to_value key (d.derive_value_from fid key kk vv) = some v)
    (h4 : truthy v = true) :
    processEntry d k kk vv =
      .ok (explanationOf key kk vv,
        some (Record.mk tpe i ((pySplit key '/').headD "") ((pySplit key '/').getD 1 "") v))
    ∧ ∀ (es : List (String × String × Rat)) (recs : List Record),
        (runEntries d es).2 = .ok recs → recs = es.filterMap (recOf d) := by
  constructor
  · rw [processEntry_eq d k kk vv fid i key tpe h1 h2, h3]
    simp [h4]
  · intro es
    induction es with
    | nil =>
      intro recs h
      have h2x : (Except.ok [] : Except RunError (List Record)) = .ok recs := h
      injection h2x with h2x
      rw [← h2x]
      simp
    | cons e es ih =>
      intro recs h
      rw [show runEntries d (e :: es) =
            match processEntry d e.1 e.2.1 e.2.2 with
            | .error err => ([], .error err)
            | .ok (s, ro) =>
              (s :: (runEntries d es).1,
                match (runEntries d es).2 with
                | .error err => .error err
                | .ok recs2 => .ok (ro.toList ++ recs2))
          from rfl] at h
      cases hpe : processEntry d e.1 e.2.1 e.2.2 with
      | error err =>
        rw [hpe] at h
        have h2 : (Except.error err : Except RunError (List Record)) = .ok recs := h
        cases h2
      | ok pr =>
        obtain ⟨s, ro⟩ := pr
        rw [hpe] at h
        have h2 : (match (runEntries d es).2 with
            | .error err => .error err
            | .ok recs2 => .ok (ro.toList ++ recs2)) = Except.ok recs := h
        cases hre : (runEntries d es).2 with
        | error err =>
          rw [hre] at h2
          cases h2
        | ok recs2 =>
          rw [hre] at h2
          injection h2 with h2
          rw [← h2]
          have hrec : recOf d e = ro := by simp [recOf, hpe]
          have hih := ih recs2 hre
          cases ro with
          | none => simp [List.filterMap_cons, hrec, hih]
          | some r => simp [List.filterMap_cons, hrec, hih]

/-- Witness for C7 at a concrete run producing one record. -/
theorem C7_record_fields_witness :
    [Record.mk "VERTEX" 1 "A" "B" (TypedValue.vInt 7)] =
      [("f5", "s1", (3 : Rat))].filterMap (recOf dGood) :=
  (C7_record_fields dGood "f5" "s1" 3 5 1 "A/B" "VERTEX" (TypedValue.vInt 7)
      rfl rfl rfl rfl).2
    [("f5", "s1", (3 : Rat))]
    [Record.mk "VERTEX" 1 "A" "B" (TypedValue.vInt 7)]
    rfl

/-- C8: an entry whose value decoder returns a falsy concrete value (the
integer 0, the empty string, or boolean false) emits no
RecommendationRecord, exactly as if the value were absent — the record
filter tests truthiness of the decoded value, not presence. -/
theorem C8_falsy_value_dropped (d : DataModel) (k kk : String) (vv : Rat) (fid i : Int)
    (key tpe : String) (v : TypedValue)
    (h1 : pyIntChars (k.data.drop 1) = some fid)
    (h2 : d.transform_id_to_keypair fid = some (i, key, tpe))
    (h3 : d.transform_id_to_value key (d.derive_value_from fid key kk vv) = some v)
    (h4 : truthy v = false) :
    processEntry d k kk vv = .ok (explanationOf key kk vv, none)
    ∧ truthy (TypedValue.vInt 0) = false
    ∧ truthy (TypedValue.vStr "") = false
    ∧ truthy (TypedValue.vBool false) = false := by
  refine ⟨?_, by decide, by decide, rfl⟩
  rw [processEntry_eq d k kk vv fid i key tpe h1 h2, h3]
  simp [h4]

/-- Witness for C8 with a decoder returning the falsy integer 0. -/
theorem C8_falsy_value_dropped_witness :
    processEntry dZero "f5" "s1" 3 = .ok (explanationOf "A/B" "s1" 3, none)
    ∧ truthy (TypedValue.vInt 0) = false
    ∧ truthy (TypedValue.vStr "") = false
    ∧ truthy (TypedValue.vBool false) = false :=
  C8_falsy_value_dropped dZero "f5" "s1" 3 5 1 "A/B" "VERTEX" (TypedValue.vInt 0)
    rfl rfl rfl rfl

theorem applyOpt_dagsummary (st : CliState) (oa : String × String) (st2 : CliState)
    (h : applyOpt st oa = some st2) : st2.dagsummary = st.dagsummary := by
  unfold applyOpt at h
  by_cases h1 : oa.1 = "-h"
  · rw [if_pos h1] at h
    cases h
  · rw [if_neg h1] at h
    by_cases h2 : oa.1 = "-s" ∨ oa.1 = "--dagsummary"
    · rw [if_pos h2] at h
      injection h with h
      rw [← h]
    · rw [if_neg h2] at h
      by_cases h3 : oa.1 = "-d" ∨ oa.1 = "--dagpropertydir"
      · rw [if_pos h3] at h
        injection h with h
        rw [← h]
      · rw [if_neg h3] at h
        by_cases h4 : oa.1 = "-r" ∨ oa.1 = "--resourceinfo"
        · rw [if_pos h4] at h
          injection h with h
          rw [← h]
        · rw [if_neg h4] at h
          injection h with h
          rw [← h]

theorem foldlM_applyOpt_dagsummary (opts : List (String × String)) :
    ∀ (st0 st : CliState), List.foldlM applyOpt st0 opts = some st →
      st.dagsummary = st0.dagsummary := by
  induction opts with
  | nil =>
    intro st0 st h
    have h2 : some st0 = some st := h
    injection h2 with h2
    rw [h2]
  | cons oa opts ih =>
    intro st0 st h
    rw [show List.foldlM applyOpt st0 (oa :: opts) =
          (applyOpt st0 oa).bind (fun st1 => List.foldlM applyOpt st1 opts) from rfl] at h
    cases hap : applyOpt st0 oa with
    | none =>
      rw [hap] at h
      cases h
    | some st1 =>
      rw [hap] at h
      have h2 : List.foldlM applyOpt st1 opts = some st := h
      rw [ih st1 st h2]
      exact applyOpt_dagsummary st0 oa st1 hap

/-- C10: option parsing stores the value of the -s (long form --dagsummary)
option into the dagpropertydir variable, so the dagsummary variable remains
None regardless of arguments, and a -s value is overwritten by any later
-d (long form --dagpropertydir) value. -/
theorem C10_cli_option_loop :
    (∀ (opts : List (String × String)) (st : CliState),
        parseOpts opts = some st → st.dagsummary = none)
    ∧ (∀ (st : CliState) (a : String),
        applyOpt st ("-s", a) = some (CliState.mk st.dagsummary (some a) st.resourceinfo))
    ∧ (∀ (st : CliState) (b : String),
        applyOpt st ("-d", b) = some (CliState.mk st.dagsummary (some b) st.resourceinfo))
    ∧ (∀ (st st1 st2 : CliState) (a b : String),
        applyOpt st ("-s", a) = some st1 → applyOpt st1 ("-d", b) = some st2 →
          st2.dagpropertydir = some b) := by
  have hs : ∀ (st : CliState) (a : String),
      applyOpt st ("-s", a) = some (CliState.mk st.dagsummary (some a) st.resourceinfo) := by
    intro st a
    simp [applyOpt]
  have hd : ∀ (st : CliState) (b : String),
      applyOpt st ("-d", b) = some (CliState.mk st.dagsummary (some b) st.resourceinfo) := by
    intro st b
    simp [applyOpt]
  refine ⟨?_, hs, hd, ?_⟩
  · intro opts st h
    rw [foldlM_applyOpt_dagsummary opts (CliState.mk none none none) st h]
  · intro st st1 st2 a b hA hB
    rw [hd st1 b] at hB
    injection hB with hB
    rw [← hB]

/-- Witness for C10 at the concrete argument list `-s x -d y`. -/
theorem C10_cli_option_loop_witness :
    parseOpts [("-s", "x"), ("-d", "y")] = some (CliState.mk none (some "y") none)
    ∧ (CliState.mk none (some "y") none).dagsummary = none :=
  ⟨rfl,
    C10_cli_option_loop.1 [("-s", "x"), ("-d", "y")] (CliState.mk none (some "y") none) rfl⟩

end NemoXgb
